import Mathlib

/-!
Verification of the xylon RESP server (src/proto.rs, src/db.rs, src/cmd.rs,
src/main.rs) against its natural-language specification.

Shallow embedding conventions:
* Rust byte slices / `String` payloads (built with `from_utf8_unchecked`) are
  `List Nat` of byte values.
* `usize` values are `Nat`; the `i64 -> usize` `as`-cast is modelled with an
  explicit `% 2^64` (two's complement), and the one place where `usize`
  addition can wrap (`length + 2` in the bulk-string branch of
  `Value::parse`) wraps explicitly `% 2^64` (release-profile semantics).
* `Instant` / `SystemTime` / `Duration` are `Nat` milliseconds (every
  duration the program builds is a whole number of milliseconds).
* Fallible code returns `Option`/`Except`; a Rust panic
  (`unwrap`/`unimplemented!`) is an explicit error constructor.
-/

namespace Xylon

/-- Bytes of an ASCII string literal. -/
def strBytes (s : String) : List Nat := s.data.map Char.toNat

/-- `Value` from src/proto.rs: the RESP data model.  String payloads are byte
lists (the source builds its `String`s with `from_utf8_unchecked`, so they are
arbitrary bytes). -/
inductive Value where
  | simpleString (s : List Nat)
  | error (message : List Nat)
  | integer (i : Int)
  | bulkString (s : List Nat)
  | array (items : List Value)
  | nullArray
  | nullString

/-- `ProtocolError` from src/proto.rs. -/
inductive ProtocolError where
  | unknownType
  | notAnInteger
  | expectedCrlf
deriving DecidableEq

/-- `ParseError` from src/proto.rs (used by the command parser in src/cmd.rs). -/
inductive ParseError where
  | expectedString
  | expectedInteger
  | expectedAny
deriving DecidableEq

/-- Result of `Value::parse` in src/proto.rs, flattening
`Result<OptionalWithMissingHint<ParsedValue>, Error>` (the `Io` variant of
`Error` never arises in `parse`). `ok v off` is `Ok(Some(ParsedValue))`,
`missing n` is `Ok(Missing(n))`, `noClue` is `Ok(NoClue)` and `err e` is
`Err(ProtocolError(e))`. -/
inductive ParseOutcome where
  | ok (value : Value) (offset : Nat)
  | missing (amount : Nat)
  | noClue
  | err (e : ProtocolError)

/-- Outcome of the child-parsing loop in the `b'*'` branch of `Value::parse`. -/
inductive ManyOutcome where
  | ok (values : List Value) (offset : Nat)
  | missing (amount : Nat)
  | noClue
  | err (e : ProtocolError)

/-- `find_next_crlf` from src/proto.rs: index of the first `\r` that is
immediately followed by `\n`. -/
def find_next_crlf : List Nat → Option Nat
  | [] => none
  | [_] => none
  | a :: b :: rest =>
    if a = 13 ∧ b = 10 then some 0
    else Option.map (· + 1) (find_next_crlf (b :: rest))

/-- Is `b` an ASCII decimal digit? -/
def isDigit (b : Nat) : Bool := 48 ≤ b && b ≤ 57

/-- Numeric value of a digit string. -/
def digitsVal (bs : List Nat) : Nat := bs.foldl (fun a b => 10 * a + (b - 48)) 0

/-- `atoi::atoi::<i64>`: whole-slice base-10 parse with optional leading
`+`/`-` sign, at least one digit, checked against the `i64` range. -/
def atoiI64 (bs : List Nat) : Option Int :=
  match bs with
  | [] => none
  | b :: rest =>
    let neg : Bool := b = 45
    let digits : List Nat := if b = 45 ∨ b = 43 then rest else bs
    if digits.isEmpty ∨ ¬ digits.all isDigit then none
    else
      let v : Int := if neg then -(digitsVal digits : Int) else (digitsVal digits : Int)
      if -(2 ^ 63) ≤ v ∧ v < 2 ^ 63 then some v else none

/-- 2^64, the `usize` modulus. -/
def u64Mod : Nat := 2 ^ 64

/-- The Rust `as`-cast from `i64` to `usize` (two's complement). -/
def i64AsUsize (i : Int) : Nat := (i % (u64Mod : Int)).toNat

mutual

/-- `Value::parse` from src/proto.rs.  Notes kept from the source:
* byte tags: `+` 43, `-` 45, `:` 58, `$` 36, `*` 42; CR 13, LF 10;
* in the `$` branch the source computes `length + 2` in `usize`, which wraps
  (modelled with `% u64Mod`); when `length as usize` is out of bounds the
  source's `rest.get_unchecked(length..length + 2)` is UB, modelled as the
  (empty) `drop`/`take` slice;
* the `*` branch's `Vec::with_capacity(length)` has no observable effect in
  the model (for astronomically large `length` the real allocator would
  abort; no theorem below evaluates that path). -/
def parse : List Nat → ParseOutcome
  | [] => .missing 1
  | b :: tail =>
    if b = 43 then
      match find_next_crlf tail with
      | some crlfStart => .ok (.simpleString (tail.take crlfStart)) (crlfStart + 3)
      | none => .noClue
    else if b = 45 then
      match find_next_crlf tail with
      | some crlfStart => .ok (.error (tail.take crlfStart)) (crlfStart + 3)
      | none => .noClue
    else if b = 58 then
      match find_next_crlf tail with
      | some crlfStart =>
        match atoiI64 (tail.take crlfStart) with
        | some i => .ok (.integer i) (crlfStart + 3)
        | none => .err .notAnInteger
      | none => .noClue
    else if b = 36 then
      match find_next_crlf tail with
      | some crlfStart =>
        match atoiI64 (tail.take crlfStart) with
        | some length =>
          if length ≠ -1 then
            let lengthU := i64AsUsize length
            let rest := tail.drop (crlfStart + 2)
            let lim := (lengthU + 2) % u64Mod
            if rest.length < lim then .missing (lim - rest.length)
            else if (rest.drop lengthU).take 2 ≠ [13, 10] then .err .expectedCrlf
            else .ok (.bulkString (rest.take lengthU)) (crlfStart + 3 + (lengthU + 2))
          else .ok .nullString (crlfStart + 3)
        | none => .err .notAnInteger
      | none => .noClue
    else if b = 42 then
      match find_next_crlf tail with
      | some crlfStart =>
        match atoiI64 (tail.take crlfStart) with
        | some length =>
          if length ≠ -1 then
            match parseMany (i64AsUsize length) (tail.drop (crlfStart + 2)) with
            | .ok values consumed => .ok (.array values) (crlfStart + 3 + consumed)
            | .missing n => .missing n
            | .noClue => .noClue
            | .err e => .err e
          else .ok .nullArray (crlfStart + 3)
        | none => .err .notAnInteger
      | none => .noClue
    else .err .unknownType
termination_by src => (src.length, 0)
decreasing_by
  all_goals simp_wf
  all_goals rw [Prod.lex_def]
  all_goals simp
  all_goals omega

/-- The `for _ in 0..length` child loop of the `b'*'` branch of
`Value::parse`: parse `count` frames from `rest`, accumulating the offset. -/
def parseMany : Nat → List Nat → ManyOutcome
  | 0, _ => .ok [] 0
  | count + 1, rest =>
    match parse rest with
    | .ok v c =>
      match parseMany count (rest.drop c) with
      | .ok vs m => .ok (v :: vs) (c + m)
      | .missing n => .missing n
      | .noClue => .noClue
      | .err e => .err e
    | .missing n => .missing n
    | .noClue => .noClue
    | .err e => .err e
termination_by count rest => (rest.length, count + 1)
decreasing_by
  all_goals simp_wf
  all_goals rw [Prod.lex_def]
  all_goals simp
  all_goals omega

end

example : parse (strBytes "+OK\r\n") = .ok (.simpleString (strBytes "OK")) 5 := by
  simp [parse, strBytes, find_next_crlf]

/-- Decimal digit bytes of a natural number (the `itoa` crate's formatting). -/
def natDigits (n : Nat) : List Nat :=
  if n < 10 then [n + 48] else natDigits (n / 10) ++ [n % 10 + 48]

/-- Decimal digit bytes of an integer, `-` (45) prefixed when negative
(the `itoa` crate's formatting for `i64`). -/
def intDigits (i : Int) : List Nat :=
  if i < 0 then 45 :: natDigits (-i).toNat else natDigits i.toNat

mutual

/-- `RedisProtocol::encode` from src/proto.rs, as the byte list appended to
`dst`.  Note: the source's `Value::Error` branch writes the tag byte `b'+'`
(43) — the same tag as `Value::SimpleString` — before the message and CRLF. -/
def encode : Value → List Nat
  | .simpleString s => 43 :: (s ++ [13, 10])
  | .error message => 43 :: (message ++ [13, 10])
  | .integer i => 58 :: (intDigits i ++ [13, 10])
  | .bulkString s => 36 :: (natDigits s.length ++ [13, 10] ++ s ++ [13, 10])
  | .array items => 42 :: (natDigits items.length ++ [13, 10] ++ encodeList items)
  | .nullString => [36, 45, 49, 13, 10]
  | .nullArray => [42, 45, 49, 13, 10]

/-- The `for value in array` loop of `RedisProtocol::encode`. -/
def encodeList : List Value → List Nat
  | [] => []
  | v :: vs => encode v ++ encodeList vs

end

/-- Result of `RedisProtocol::decode` (src/proto.rs): `Ok(Option<Value>)`
together with the buffer left after `src.advance(offset)`, or a protocol
error. -/
inductive DecodeResult where
  | ok (item : Option Value) (rest : List Nat)
  | err (e : ProtocolError)

/-- `RedisProtocol::decode` from src/proto.rs.  On `Missing`, the source's
`src.reserve(amount)` only grows capacity, so the buffer contents are
unchanged; on `Some` the buffer is advanced by exactly `offset` bytes. -/
def decode (src : List Nat) : DecodeResult :=
  match parse src with
  | .ok v off => .ok (some v) (src.drop off)
  | .missing _ => .ok none src
  | .noClue => .ok none src
  | .err e => .err e

/-- C2: the claim says `RedisProtocol::encode` emits an `Error` value as
`-<text>\r\n` (leading tag byte 45).  The source instead emits `+<text>\r\n`
(leading tag byte 43, the SimpleString tag): evaluated at the Error value with
message "x", the encoder output is `+x\r\n`, not `-x\r\n`. -/
theorem C2_error_encoded_with_plus_tag :
    encode (.error (strBytes "x")) = 43 :: (strBytes "x" ++ [13, 10]) ∧
      encode (.error (strBytes "x")) ≠ 45 :: (strBytes "x" ++ [13, 10]) := by
  constructor
  · simp [encode]
  · simp [encode, strBytes]

/-- C1: the claim says `decode (encode v) = v` for every Value whose
SimpleString/Error payloads contain no CR/LF.  It fails at
`v = Error "x"` (a CR/LF-free payload): because the encoder writes the `+`
tag for errors, the round trip yields `SimpleString "x"` — decode does
consume all 4 encoded bytes, but returns the wrong value. -/
theorem C1_roundtrip_fails_for_error_values :
    decode (encode (.error (strBytes "x")))
        = .ok (some (.simpleString (strBytes "x"))) [] ∧
      Value.simpleString (strBytes "x") ≠ Value.error (strBytes "x") := by
  constructor
  · simp [decode, encode, parse, strBytes, find_next_crlf]
  · simp

/-- C6: the claim says a bulk-string header with a negative length other than
-1 yields a protocol error.  The source instead casts the `i64` length to
`usize`: for the input `$-3\r\n` the cast gives `2^64 - 3`, the codec
returns a need-more-bytes hint of `2^64 - 1` bytes (and the decoder
signals "no item yet", consuming nothing) — not a protocol error. -/
theorem C6_negative_bulk_length_not_an_error :
    parse (strBytes "$-3\r\n") = .missing (2 ^ 64 - 1) ∧
      decode (strBytes "$-3\r\n") = .ok none (strBytes "$-3\r\n") := by
  have h : parse (strBytes "$-3\r\n") = .missing (2 ^ 64 - 1) := by
    simp [parse, strBytes, find_next_crlf, atoiI64, digitsVal, isDigit,
      i64AsUsize, u64Mod]
  exact ⟨h, by simp [decode, h]⟩

/-- `SetBehaviour` from src/cmd.rs. -/
inductive SetBehaviour where
  | force
  | onlyIfNotExists
  | onlyIfExists
deriving DecidableEq

/-- `ExpireBehaviour` from src/cmd.rs. -/
inductive ExpireBehaviour where
  | force
  | onlyIfNoExpiry
  | onlyIfExpiry
  | onlyIfGreater
  | onlyIfLess
deriving DecidableEq

/-- `Entry` from src/db.rs.  Instants are `Nat` milliseconds; the delay-queue
`Key` handle is an opaque `Nat` token. -/
structure Entry where
  value : Value
  expires_at : Option Nat
  expiration_key : Option Nat

/-- The `DashMap<String, Entry>` of `DbInner`, as an association list with
unique keys (keys are byte lists). -/
abbrev Keyspace := List (List Nat × Entry)

/-- Map lookup. -/
def ksLookup : Keyspace → List Nat → Option Entry
  | [], _ => none
  | (k, e) :: rest, key => if k = key then some e else ksLookup rest key

/-- Replace the entry stored at `key` (used for the Occupied branch of
`Db::set`, which mutates the entry in place). -/
def ksUpdate : Keyspace → List Nat → Entry → Keyspace
  | [], _, _ => []
  | (k, e) :: rest, key, e' =>
    if k = key then (k, e') :: rest else (k, e) :: ksUpdate rest key e'

/-- Map removal, returning the removed entry like `DashMap::remove`. -/
def ksTake : Keyspace → List Nat → Option Entry × Keyspace
  | [], _ => (none, [])
  | (k, e) :: rest, key =>
    if k = key then (some e, rest)
    else
      let (r, rest') := ksTake rest key
      (r, (k, e) :: rest')

/-- `Db::get` from src/db.rs: clone of the stored value, with no look at
`expires_at`. -/
def dbGet (db : Keyspace) (key : List Nat) : Option Value :=
  (ksLookup db key).map Entry.value

/-- The `should_insert` gate computed at the top of `Db::set`. -/
def shouldInsert (behaviour : SetBehaviour) (occupied : Bool) : Bool :=
  match behaviour with
  | .force => true
  | .onlyIfExists => occupied
  | .onlyIfNotExists => !occupied

/-- `Db::set` from src/db.rs.  `Except.error ()` models the
`old.expiration_key.unwrap()` panic in the Occupied branch; `freshKey` is the
delay-queue key the expiration task would return for an Insert; the Reset
message leaves the existing handle valid, so `expiration_key` is kept.  In
the Occupied branch the stored value is always replaced, and the TTL fields
are touched only when `!keep_ttl` and an expiry was supplied. -/
def dbSet (db : Keyspace) (key : List Nat) (value : Value) (expire : Option Nat)
    (behaviour : SetBehaviour) (keep_ttl : Bool) (now : Nat) (freshKey : Nat) :
    Except Unit (Keyspace × Option Value) :=
  if shouldInsert behaviour (ksLookup db key).isSome then
    match ksLookup db key with
    | some old =>
      if keep_ttl = false then
        match expire with
        | some expiration =>
          match old.expiration_key with
          | some k =>
            .ok (ksUpdate db key ⟨value, some (now + expiration), some k⟩, some old.value)
          | none => .error ()
        | none =>
          .ok (ksUpdate db key ⟨value, old.expires_at, old.expiration_key⟩, some old.value)
      else
        .ok (ksUpdate db key ⟨value, old.expires_at, old.expiration_key⟩, some old.value)
    | none =>
      match expire with
      | some expiration =>
        .ok ((key, ⟨value, some (now + expiration), some freshKey⟩) :: db, some .nullString)
      | none => .ok ((key, ⟨value, none, none⟩) :: db, some .nullString)
  else .ok (db, none)

/-- `Db::remove_raw` from src/db.rs (used by the expiration task). -/
def dbRemoveRaw (db : Keyspace) (key : List Nat) : Keyspace :=
  (ksTake db key).2

/-- `Db::remove` from src/db.rs: bulk delete, counting the keys that
existed (the Remove message to the expiration task has no map-visible
effect). -/
def dbRemove (db : Keyspace) (keys : List (List Nat)) : Keyspace × Nat :=
  match keys with
  | [] => (db, 0)
  | key :: rest =>
    let (removed, db') := ksTake db key
    let (db'', count) := dbRemove db' rest
    (db'', (if removed.isSome then 1 else 0) + count)

/-- `Db::ttl` from src/db.rs: whole seconds remaining;
`checked_duration_since` yields `Some` exactly when the deadline has not
passed. -/
def dbTtl (db : Keyspace) (key : List Nat) (now : Nat) : Int :=
  match ksLookup db key with
  | some entry =>
    match entry.expires_at with
    | some expiration =>
      if now ≤ expiration then (((expiration - now) / 1000 : Nat) : Int) else -2
    | none => -1
  | none => -2

/-- `Db::pttl` from src/db.rs: milliseconds remaining. -/
def dbPttl (db : Keyspace) (key : List Nat) (now : Nat) : Int :=
  match ksLookup db key with
  | some entry =>
    match entry.expires_at with
    | some expiration =>
      if now ≤ expiration then ((expiration - now : Nat) : Int) else -2
    | none => -1
  | none => -2

/-- The `RedisCommand::Set` branch of `RedisCommand::apply` (src/cmd.rs):
run `Db::set`, then build the reply from `return_old` and the returned
prior value. -/
def applySet (db : Keyspace) (key : List Nat) (value : Value) (expiry : Option Nat)
    (behaviour : SetBehaviour) (return_old : Bool) (keep_ttl : Bool)
    (now : Nat) (freshKey : Nat) : Except Unit (Keyspace × Value) :=
  match dbSet db key value expiry behaviour keep_ttl now freshKey with
  | .error e => .error e
  | .ok (db', old) =>
    if return_old then
      match old with
      | some v => .ok (db', v)
      | none => .ok (db', .nullString)
    else
      if old.isSome then .ok (db', .simpleString (strBytes "OK"))
      else .ok (db', .nullString)

/-- C3 counterexample: the claim says every SET without the GET flag whose
behaviour gate allowed the write replies `SimpleString "OK"`.  At the concrete
input below — key "k" holds a TTL-free entry, then `SET k v2 EX 10` (no
GET, behaviour Force) — the gate allows the replace, yet `Db::set` panics on
`old.expiration_key.unwrap()` and no reply (in particular no OK) is ever
produced. -/
theorem C3_gate_allows_write_but_no_ok_reply :
    shouldInsert .force
        ((ksLookup [(strBytes "k", ⟨.bulkString (strBytes "v1"), none, none⟩)]
          (strBytes "k")).isSome) = true ∧
      applySet [(strBytes "k", ⟨.bulkString (strBytes "v1"), none, none⟩)]
          (strBytes "k") (.bulkString (strBytes "v2")) (some 10000) .force false false 0 0 =
        .error () := by
  constructor
  · simp [ksLookup, shouldInsert]
  · simp [applySet, dbSet, ksLookup, shouldInsert]

/-- C3 (as corrected): for every SET without the GET flag on which `Db::set`
returns rather than hitting the `expiration_key.unwrap()` panic, the reply is `SimpleString "OK"` exactly
when the behaviour gate let the write proceed (insert or replace), and
`NullString` exactly when the gate skipped it. -/
theorem C3_set_without_get_replies_ok_or_null (db : Keyspace) (key : List Nat)
    (value : Value) (expiry : Option Nat) (behaviour : SetBehaviour)
    (keep_ttl : Bool) (now freshKey : Nat) (db' : Keyspace) (old : Option Value)
    (h : dbSet db key value expiry behaviour keep_ttl now freshKey = .ok (db', old)) :
    applySet db key value expiry behaviour false keep_ttl now freshKey =
      .ok (db',
        if shouldInsert behaviour (ksLookup db key).isSome then
          Value.simpleString (strBytes "OK")
        else Value.nullString) := by
  have hsome : old.isSome = shouldInsert behaviour (ksLookup db key).isSome := by
    unfold dbSet at h
    by_cases hg : shouldInsert behaviour (ksLookup db key).isSome = true
    · rw [hg]
      simp only [hg, if_true] at h
      cases hlook : ksLookup db key with
      | none =>
        rw [hlook] at h
        cases expiry with
        | none => simp at h; rw [← h.2]; rfl
        | some d => simp at h; rw [← h.2]; rfl
      | some old' =>
        rw [hlook] at h
        by_cases hk : keep_ttl = false
        · rw [hk] at h
          simp only [if_pos rfl] at h
          cases expiry with
          | none => simp at h; rw [← h.2]; rfl
          | some d =>
            cases hek : old'.expiration_key with
            | none => rw [hek] at h; simp at h
            | some k' => rw [hek] at h; simp at h; rw [← h.2]; rfl
        · have hk' : keep_ttl = true := by revert hk; cases keep_ttl <;> simp
          rw [hk'] at h
          simp at h
          rw [← h.2]; rfl
    · simp only [Bool.not_eq_true] at hg
      rw [hg]
      simp [hg] at h
      rw [← h.2]; rfl
  unfold applySet
  rw [h]
  simp only [Bool.false_eq_true, if_false]
  rw [hsome]
  by_cases hg : shouldInsert behaviour (ksLookup db key).isSome = true <;> simp [hg]

/-- Witness for C3 at a concrete input: inserting key "k" into the empty
keyspace with behaviour Force succeeds and replies `SimpleString "OK"`. -/
theorem C3_witness :
    applySet [] (strBytes "k") (.bulkString (strBytes "v")) none .force false false 0 0 =
      .ok ([(strBytes "k", ⟨.bulkString (strBytes "v"), none, none⟩)],
        Value.simpleString (strBytes "OK")) := by
  have h := C3_set_without_get_replies_ok_or_null [] (strBytes "k")
    (.bulkString (strBytes "v")) none .force false 0 0
    [(strBytes "k", ⟨.bulkString (strBytes "v"), none, none⟩)] (some .nullString)
    (by simp [dbSet, ksLookup, shouldInsert])
  simpa [ksLookup, shouldInsert] using h

/-- C4: the claim says a SET that proceeds on an existing key with no expiry
and `keep_ttl = false` clears the prior TTL so that TTL then reports -1.
The source's Occupied branch leaves `expires_at` (and the handle) untouched
in that case: starting from key "k" with 100 s of TTL left, `SET k v3`
still shows 50 whole seconds of TTL at a time 50 s later — not -1. -/
theorem C4_set_without_expiry_keeps_prior_ttl :
    dbSet [(strBytes "k", ⟨.bulkString (strBytes "v1"), some 100000, some 7⟩)]
        (strBytes "k") (.bulkString (strBytes "v3")) none .force false 50000 0 =
      .ok ([(strBytes "k", ⟨.bulkString (strBytes "v3"), some 100000, some 7⟩)],
        some (.bulkString (strBytes "v1"))) ∧
    dbTtl [(strBytes "k", ⟨.bulkString (strBytes "v3"), some 100000, some 7⟩)]
        (strBytes "k") 50000 = 50 ∧ (50 : Int) ≠ -1 := by
  refine ⟨?_, ?_, by decide⟩
  · simp [dbSet, ksLookup, ksUpdate, shouldInsert]
  · simp [dbTtl, ksLookup]

/-- C7: the claim says every keyspace operation completes without failing;
in particular a SET with an expiry replacing an entry that has no TTL.  The
source's Occupied branch calls `old.expiration_key.unwrap()` after deciding
to install the new expiry, and that entry's handle is `None` — the call
panics (modelled as `Except.error ()`), violating the no-failure claim (and
the handle-iff-deadline invariant is unrestorable for that entry). -/
theorem C7_set_expiry_on_ttl_free_entry_panics :
    dbSet [(strBytes "k", ⟨.bulkString (strBytes "v1"), none, none⟩)]
        (strBytes "k") (.bulkString (strBytes "v2")) (some 10000) .force false 0 0 =
      .error () := by
  simp [dbSet, ksLookup, shouldInsert]

/-- C10: `Db::get` never consults `expires_at`: while an entry whose deadline
has passed is still in the map (only the background expiration task removes
it), `get` still returns a clone of the stored value, while `ttl` and `pttl`
on the same key already report -2. -/
theorem C10_get_ignores_passed_deadline (db : Keyspace) (key : List Nat)
    (e : Entry) (t now : Nat) (hlook : ksLookup db key = some e)
    (hexp : e.expires_at = some t) (hpast : t < now) :
    dbGet db key = some e.value ∧ dbTtl db key now = -2 ∧ dbPttl db key now = -2 := by
  refine ⟨by simp [dbGet, hlook], ?_, ?_⟩
  · simp [dbTtl, hlook, hexp]
    omega
  · simp [dbPttl, hlook, hexp]
    omega

/-- Witness for C10 at a concrete input: key "k" expired at time 1000,
observed at time 2000. -/
theorem C10_witness :
    dbGet [(strBytes "k", ⟨.bulkString (strBytes "v"), some 1000, some 3⟩)] (strBytes "k") =
        some (.bulkString (strBytes "v")) ∧
      dbTtl [(strBytes "k", ⟨.bulkString (strBytes "v"), some 1000, some 3⟩)]
          (strBytes "k") 2000 = -2 ∧
      dbPttl [(strBytes "k", ⟨.bulkString (strBytes "v"), some 1000, some 3⟩)]
          (strBytes "k") 2000 = -2 :=
  C10_get_ignores_passed_deadline _ _ ⟨.bulkString (strBytes "v"), some 1000, some 3⟩
    1000 2000 (by simp [ksLookup]) rfl (by omega)

/-- `make_ascii_uppercase`: map bytes `a`..`z` to `A`..`Z`. -/
def asciiUpper (s : List Nat) : List Nat :=
  s.map (fun c => if 97 ≤ c ∧ c ≤ 122 then c - 32 else c)

/-- `Value::try_as_string` from src/proto.rs: SimpleString and BulkString
payloads, ASCII-uppercased. -/
def tryAsString : Value → Option (List Nat)
  | .simpleString s => some (asciiUpper s)
  | .bulkString s => some (asciiUpper s)
  | _ => none

/-- `RedisCommand` from src/cmd.rs. -/
inductive RedisCommand where
  | command
  | commandDocs (names : List (List Nat))
  | configGet (globs : List (List Nat))
  | get (key : List Nat)
  | set (key : List Nat) (value : Value) (expiry : Option Nat)
      (behaviour : SetBehaviour) (return_old : Bool) (keep_ttl : Bool)
  | del (keys : List (List Nat))
  | ttl (key : List Nat)
  | pttl (key : List Nat)
  | expire (key : List Nat) (seconds : Nat) (behaviour : ExpireBehaviour)
  | keys (glob : List Nat)

/-- `CommandParser::expect_string` (src/cmd.rs): pop the front value; a
BulkString or SimpleString yields its payload.  (On failure the popped
element is discarded, and no later code reads the buffer again, so only the
error is modelled.) -/
def expect_string : List Value → Except ParseError (List Nat × List Value)
  | .bulkString s :: rest => .ok (s, rest)
  | .simpleString s :: rest => .ok (s, rest)
  | _ => .error .expectedString

/-- `CommandParser::expect_integer` (src/cmd.rs). -/
def expect_integer : List Value → Except ParseError (Int × List Value)
  | .integer i :: rest => .ok (i, rest)
  | _ => .error .expectedInteger

/-- `CommandParser::expect_any` (src/cmd.rs). -/
def expect_any : List Value → Except ParseError (Value × List Value)
  | v :: rest => .ok (v, rest)
  | [] => .error .expectedAny

/-- The `while let Ok(s) = self.expect_string()` loops (COMMAND DOCS,
CONFIG GET, DEL): collect leading string payloads, stopping at the first
non-string (which the loop pops and discards) or at the end. -/
def collectStrings : List Value → List (List Nat)
  | .bulkString s :: rest => s :: collectStrings rest
  | .simpleString s :: rest => s :: collectStrings rest
  | _ => []

/-- Outcome of `CommandParser::parse`: `panicked` models the
`unimplemented!()` in the fallback (unknown-verb) arm. -/
inductive CmdOutcome where
  | ok (cmd : RedisCommand)
  | err (e : ParseError)
  | panicked

/-- The SET argument parsing of `CommandParser::parse` (src/cmd.rs), after
the verb has been matched: key, value, then one peek each — in this fixed
sequence — for NX/XX, for GET, and for one expiry flag.  `nowMs` is
`SystemTime::now()` as Unix milliseconds (used by EXAT/PXAT);
`i64AsUsize` doubles as the `as u64` cast. -/
def parseSetArgs (nowMs : Nat) (buf : List Value) : CmdOutcome :=
  match expect_string buf with
  | .error e => .err e
  | .ok (key, buf1) =>
    match expect_any buf1 with
    | .error e => .err e
    | .ok (value, buf2) =>
      let bp := match buf2.head? >>= tryAsString with
        | some s =>
          if s = strBytes "NX" then (SetBehaviour.onlyIfNotExists, buf2.tail)
          else if s = strBytes "XX" then (SetBehaviour.onlyIfExists, buf2.tail)
          else (SetBehaviour.force, buf2)
        | none => (SetBehaviour.force, buf2)
      let gp := match bp.2.head? >>= tryAsString with
        | some s => if s = strBytes "GET" then (true, bp.2.tail) else (false, bp.2)
        | none => (false, bp.2)
      match gp.2.head? >>= tryAsString with
      | some s =>
        if s = strBytes "EX" then
          match expect_integer gp.2.tail with
          | .error e => .err e
          | .ok (secs, _) =>
            .ok (.set key value (some (1000 * i64AsUsize secs)) bp.1 gp.1 false)
        else if s = strBytes "PX" then
          match expect_integer gp.2.tail with
          | .error e => .err e
          | .ok (millis, _) =>
            .ok (.set key value (some (i64AsUsize millis)) bp.1 gp.1 false)
        else if s = strBytes "EXAT" then
          match expect_integer gp.2.tail with
          | .error e => .err e
          | .ok (secs, _) =>
            .ok (.set key value
              (if nowMs ≤ 1000 * i64AsUsize secs then some (1000 * i64AsUsize secs - nowMs)
               else none) bp.1 gp.1 false)
        else if s = strBytes "PXAT" then
          match expect_integer gp.2.tail with
          | .error e => .err e
          | .ok (millis, _) =>
            .ok (.set key value
              (if nowMs ≤ i64AsUsize millis then some (i64AsUsize millis - nowMs)
               else none) bp.1 gp.1 false)
        else if s = strBytes "KEEPTTL" then
          .ok (.set key value none bp.1 gp.1 true)
        else .ok (.set key value none bp.1 gp.1 false)
      | none => .ok (.set key value none bp.1 gp.1 false)

/-- The EXPIRE argument parsing of `CommandParser::parse` (src/cmd.rs). -/
def parseExpireArgs (buf : List Value) : CmdOutcome :=
  match expect_string buf with
  | .error e => .err e
  | .ok (key, buf1) =>
    match expect_integer buf1 with
    | .error e => .err e
    | .ok (seconds, buf2) =>
      let bp := match buf2.head? >>= tryAsString with
        | some s =>
          if s = strBytes "NX" then (ExpireBehaviour.onlyIfNoExpiry, buf2.tail)
          else if s = strBytes "XX" then (ExpireBehaviour.onlyIfExpiry, buf2.tail)
          else if s = strBytes "GT" then (ExpireBehaviour.onlyIfGreater, buf2.tail)
          else if s = strBytes "LT" then (ExpireBehaviour.onlyIfLess, buf2.tail)
          else (ExpireBehaviour.force, buf2)
        | none => (ExpireBehaviour.force, buf2)
      .ok (.expire key (i64AsUsize seconds) bp.1)

/-- The `match command_name.as_str()` dispatch of `CommandParser::parse`:
the final arm is the source's `unimplemented!()`. -/
def cmdDispatch (nowMs : Nat) (name : List Nat) (buf : List Value) : CmdOutcome :=
  if name = strBytes "COMMAND" then .ok .command
  else if name = strBytes "COMMAND DOCS" then .ok (.commandDocs (collectStrings buf))
  else if name = strBytes "CONFIG GET" then .ok (.configGet (collectStrings buf))
  else if name = strBytes "GET" then
    match expect_string buf with
    | .ok (key, _) => .ok (.get key)
    | .error e => .err e
  else if name = strBytes "SET" then parseSetArgs nowMs buf
  else if name = strBytes "DEL" then .ok (.del (collectStrings buf))
  else if name = strBytes "TTL" then
    match expect_string buf with
    | .ok (key, _) => .ok (.ttl key)
    | .error e => .err e
  else if name = strBytes "PTTL" then
    match expect_string buf with
    | .ok (key, _) => .ok (.pttl key)
    | .error e => .err e
  else if name = strBytes "EXPIRE" then parseExpireArgs buf
  else if name = strBytes "KEYS" then
    match expect_string buf with
    | .ok (glob, _) => .ok (.keys glob)
    | .error e => .err e
  else .panicked

/-- `CommandParser::parse` from src/cmd.rs: pop and uppercase the verb, join
an optional/required subcommand for COMMAND/CONFIG, then dispatch. -/
def cmdParse (nowMs : Nat) (buffer : List Value) : CmdOutcome :=
  match expect_string buffer with
  | .error e => .err e
  | .ok (name0, buf1) =>
    let name := asciiUpper name0
    if name = strBytes "COMMAND" then
      match expect_string buf1 with
      | .ok (sub, buf2) => cmdDispatch nowMs (name ++ [32] ++ asciiUpper sub) buf2
      | .error _ => cmdDispatch nowMs name buf1
    else if name = strBytes "CONFIG" then
      match expect_string buf1 with
      | .ok (sub, buf2) => cmdDispatch nowMs (name ++ [32] ++ asciiUpper sub) buf2
      | .error e => .err e
    else cmdDispatch nowMs name buf1

/-- C8: the claim says a top-level array whose first element is an
unrecognized verb makes the parser return a `ParseError` (surfaced as a
generic error reply, connection kept open).  The source's fallback arm
instead runs `unimplemented!()`: at the request `["FOO"]` the parsing task
panics and no reply of any kind is produced. -/
theorem C8_unknown_verb_panics :
    cmdParse 0 [.bulkString (strBytes "FOO")] = .panicked := by
  simp [cmdParse, expect_string, asciiUpper, strBytes, cmdDispatch]

/-- C9 counterexample: the claim says the SET flags parse the same in any
order.  With the flag set {NX, GET}, the order `GET NX` loses the NX flag
(behaviour stays Force, the trailing NX token is silently ignored) while the
order `NX GET` keeps it — the two permutations parse to different typed
commands. -/
theorem C9_flag_order_changes_parse :
    cmdParse 0 [.bulkString (strBytes "SET"), .bulkString (strBytes "k"),
        .bulkString (strBytes "v"), .bulkString (strBytes "GET"),
        .bulkString (strBytes "NX")] =
      .ok (.set (strBytes "k") (.bulkString (strBytes "v")) none .force true false) ∧
    cmdParse 0 [.bulkString (strBytes "SET"), .bulkString (strBytes "k"),
        .bulkString (strBytes "v"), .bulkString (strBytes "NX"),
        .bulkString (strBytes "GET")] =
      .ok (.set (strBytes "k") (.bulkString (strBytes "v")) none
        .onlyIfNotExists true false) ∧
    SetBehaviour.force ≠ SetBehaviour.onlyIfNotExists := by
  refine ⟨?_, ?_, by simp⟩
  · simp [cmdParse, expect_string, expect_any, asciiUpper, strBytes, cmdDispatch,
      parseSetArgs, tryAsString]
  · simp [cmdParse, expect_string, expect_any, asciiUpper, strBytes, cmdDispatch,
      parseSetArgs, tryAsString]

/-- Descriptor for the optional NX/XX flag, used only to state the corrected
version of C9. -/
inductive NxXxFlag where
  | absent
  | nx
  | xx

/-- Tokens a client sends for an NX/XX flag choice. -/
def nxXxTokens : NxXxFlag → List Value
  | .absent => []
  | .nx => [.bulkString (strBytes "NX")]
  | .xx => [.bulkString (strBytes "XX")]

/-- The `SetBehaviour` each NX/XX flag choice should produce. -/
def nxXxBehaviour : NxXxFlag → SetBehaviour
  | .absent => .force
  | .nx => .onlyIfNotExists
  | .xx => .onlyIfExists

/-- Tokens for the GET flag choice. -/
def getTokens (g : Bool) : List Value :=
  if g then [.bulkString (strBytes "GET")] else []

/-- Descriptor for the optional expiry flag, used only to state the corrected
version of C9. -/
inductive TtlFlag where
  | absent
  | ex (s : Int)
  | px (ms : Int)
  | exat (s : Int)
  | pxat (ms : Int)
  | keepttl

/-- Tokens a client sends for an expiry flag choice. -/
def ttlTokens : TtlFlag → List Value
  | .absent => []
  | .ex s => [.bulkString (strBytes "EX"), .integer s]
  | .px ms => [.bulkString (strBytes "PX"), .integer ms]
  | .exat s => [.bulkString (strBytes "EXAT"), .integer s]
  | .pxat ms => [.bulkString (strBytes "PXAT"), .integer ms]
  | .keepttl => [.bulkString (strBytes "KEEPTTL")]

/-- The expiry duration (milliseconds) each expiry flag choice should
produce at wall-clock `nowMs`. -/
def ttlExpiry (nowMs : Nat) : TtlFlag → Option Nat
  | .absent => none
  | .ex s => some (1000 * i64AsUsize s)
  | .px ms => some (i64AsUsize ms)
  | .exat s =>
    if nowMs ≤ 1000 * i64AsUsize s then some (1000 * i64AsUsize s - nowMs) else none
  | .pxat ms => if nowMs ≤ i64AsUsize ms then some (i64AsUsize ms - nowMs) else none
  | .keepttl => none

/-- The `keep_ttl` field each expiry flag choice should produce. -/
def ttlKeep : TtlFlag → Bool
  | .keepttl => true
  | _ => false

/-- C9 (as corrected): the SET parser accepts its optional flags in the fixed
sequence NX/XX, then GET, then one of EX/PX/EXAT/PXAT/KEEPTTL — each
optionally present — and produces the typed Set command with the
corresponding behaviour, return_old, expiry and keep_ttl fields.  (A flag
supplied out of this sequence is not consumed, as the counterexample shows.) -/
theorem C9_fixed_order_flags_parse (key : List Nat) (value : Value)
    (b : NxXxFlag) (g : Bool) (e : TtlFlag) (nowMs : Nat) :
    cmdParse nowMs ([.bulkString (strBytes "SET"), .bulkString key, value] ++
        nxXxTokens b ++ getTokens g ++ ttlTokens e) =
      .ok (.set key value (ttlExpiry nowMs e) (nxXxBehaviour b) g (ttlKeep e)) := by
  cases b <;> cases g <;> cases e <;>
    simp [cmdParse, expect_string, expect_any, expect_integer, asciiUpper, strBytes,
      cmdDispatch, parseSetArgs, tryAsString, nxXxTokens, nxXxBehaviour, getTokens,
      ttlTokens, ttlExpiry, ttlKeep]

/-- Does a parse outcome ask the caller for more bytes (the spec's
`NeedMore`/`Incomplete`)? -/
def ParseOutcome.needsMore : ParseOutcome → Bool
  | .missing _ => true
  | .noClue => true
  | _ => false

/-- `needsMore` for the array-children loop outcome. -/
def ManyOutcome.needsMore : ManyOutcome → Bool
  | .missing _ => true
  | .noClue => true
  | _ => false

theorem crlf_bound : ∀ (l : List Nat) (i : Nat), find_next_crlf l = some i → i + 2 ≤ l.length := by
  intro l
  induction l with
  | nil => intro i h; simp [find_next_crlf] at h
  | cons a rest ih =>
    intro i h
    cases rest with
    | nil => simp [find_next_crlf] at h
    | cons b rest' =>
      rw [find_next_crlf] at h
      by_cases hab : a = 13 ∧ b = 10
      · rw [if_pos hab] at h
        simp at h
        simp [← h]
      · rw [if_neg hab] at h
        cases hf : find_next_crlf (b :: rest') with
        | none => rw [hf] at h; simp at h
        | some j =>
          rw [hf] at h
          simp at h
          have := ih j hf
          simp at this
          simp
          omega

theorem crlf_take_none : ∀ (l : List Nat) (k : Nat), find_next_crlf l = none →
    find_next_crlf (l.take k) = none := by
  intro l
  induction l with
  | nil => intro k h; simp [List.take_nil, h]
  | cons a rest ih =>
    intro k h
    cases rest with
    | nil =>
      cases k with
      | zero => simp [find_next_crlf]
      | succ k' => simp [find_next_crlf]
    | cons b rest' =>
      rw [find_next_crlf] at h
      by_cases hab : a = 13 ∧ b = 10
      · rw [if_pos hab] at h; simp at h
      · rw [if_neg hab] at h
        have hrec : find_next_crlf (b :: rest') = none := by
          cases hf : find_next_crlf (b :: rest') with
          | none => rfl
          | some j => rw [hf] at h; simp at h
        match k with
        | 0 => simp [find_next_crlf]
        | 1 => simp [find_next_crlf]
        | (k'' + 2) =>
          rw [List.take_succ_cons, List.take_succ_cons, find_next_crlf, if_neg hab]
          have := ih (k'' + 1) hrec
          rw [List.take_succ_cons] at this
          rw [this]
          rfl

theorem crlf_take_some : ∀ (l : List Nat) (i k : Nat), find_next_crlf l = some i →
    (i + 2 ≤ k → find_next_crlf (l.take k) = some i) ∧
      (k < i + 2 → find_next_crlf (l.take k) = none) := by
  intro l
  induction l with
  | nil => intro i k h; simp [find_next_crlf] at h
  | cons a rest ih =>
    intro i k h
    cases rest with
    | nil => simp [find_next_crlf] at h
    | cons b rest' =>
      rw [find_next_crlf] at h
      by_cases hab : a = 13 ∧ b = 10
      · rw [if_pos hab] at h
        simp at h
        constructor
        · intro hk
          match k with
          | (k'' + 2) =>
            rw [List.take_succ_cons, List.take_succ_cons, find_next_crlf, if_pos hab]
            exact congrArg some h
        · intro hk
          match k with
          | 0 => simp [find_next_crlf]
          | 1 => simp [find_next_crlf]
          | (k'' + 2) => omega
      · rw [if_neg hab] at h
        cases hf : find_next_crlf (b :: rest') with
        | none => rw [hf] at h; simp at h
        | some j =>
          rw [hf] at h
          simp at h
          have hij : i = j + 1 := h.symm
          constructor
          · intro hk
            match k with
            | (k'' + 2) =>
              rw [List.take_succ_cons, List.take_succ_cons, find_next_crlf, if_neg hab]
              have := (ih j (k'' + 1) hf).1 (by omega)
              rw [List.take_succ_cons] at this
              rw [this]
              simp [hij]
          · intro hk
            match k with
            | 0 => simp [find_next_crlf]
            | 1 => simp [find_next_crlf]
            | (k'' + 2) =>
              rw [List.take_succ_cons, List.take_succ_cons, find_next_crlf, if_neg hab]
              have := (ih j (k'' + 1) hf).2 (by omega)
              rw [List.take_succ_cons] at this
              rw [this]
              rfl

theorem parse_nil : parse [] = .missing 1 := by
  simp [parse]

theorem parse_plus (tail : List Nat) :
    parse (43 :: tail) =
      match find_next_crlf tail with
      | some crlfStart => .ok (.simpleString (tail.take crlfStart)) (crlfStart + 3)
      | none => .noClue := by
  rw [parse]
  norm_num

theorem parse_minus (tail : List Nat) :
    parse (45 :: tail) =
      match find_next_crlf tail with
      | some crlfStart => .ok (.error (tail.take crlfStart)) (crlfStart + 3)
      | none => .noClue := by
  rw [parse]
  norm_num

theorem parse_colon (tail : List Nat) :
    parse (58 :: tail) =
      match find_next_crlf tail with
      | some crlfStart =>
        match atoiI64 (tail.take crlfStart) with
        | some i => .ok (.integer i) (crlfStart + 3)
        | none => .err .notAnInteger
      | none => .noClue := by
  rw [parse]
  norm_num

theorem parse_bulk (tail : List Nat) :
    parse (36 :: tail) =
      match find_next_crlf tail with
      | some crlfStart =>
        match atoiI64 (tail.take crlfStart) with
        | some length =>
          if length ≠ -1 then
            if (tail.drop (crlfStart + 2)).length < (i64AsUsize length + 2) % u64Mod then
              .missing ((i64AsUsize length + 2) % u64Mod - (tail.drop (crlfStart + 2)).length)
            else if ((tail.drop (crlfStart + 2)).drop (i64AsUsize length)).take 2 ≠ [13, 10] then
              .err .expectedCrlf
            else
              .ok (.bulkString ((tail.drop (crlfStart + 2)).take (i64AsUsize length)))
                (crlfStart + 3 + (i64AsUsize length + 2))
          else .ok .nullString (crlfStart + 3)
        | none => .err .notAnInteger
      | none => .noClue := by
  rw [parse]
  norm_num

theorem parse_star (tail : List Nat) :
    parse (42 :: tail) =
      match find_next_crlf tail with
      | some crlfStart =>
        match atoiI64 (tail.take crlfStart) with
        | some length =>
          if length ≠ -1 then
            match parseMany (i64AsUsize length) (tail.drop (crlfStart + 2)) with
            | .ok values consumed => .ok (.array values) (crlfStart + 3 + consumed)
            | .missing n => .missing n
            | .noClue => .noClue
            | .err e => .err e
          else .ok .nullArray (crlfStart + 3)
        | none => .err .notAnInteger
      | none => .noClue := by
  rw [parse]
  norm_num

theorem parse_other (b : Nat) (tail : List Nat) (h43 : b ≠ 43) (h45 : b ≠ 45)
    (h58 : b ≠ 58) (h36 : b ≠ 36) (h42 : b ≠ 42) :
    parse (b :: tail) = .err .unknownType := by
  rw [parse]
  simp [h43, h45, h58, h36, h42]

theorem parseMany_zero (rest : List Nat) : parseMany 0 rest = .ok [] 0 := by
  simp [parseMany]

theorem parseMany_succ (count : Nat) (rest : List Nat) :
    parseMany (count + 1) rest =
      match parse rest with
      | .ok v c =>
        match parseMany count (rest.drop c) with
        | .ok vs m => .ok (v :: vs) (c + m)
        | .missing n => .missing n
        | .noClue => .noClue
        | .err e => .err e
      | .missing n => .missing n
      | .noClue => .noClue
      | .err e => .err e := by
  rw [parseMany]

theorem parse_plus_some (tail : List Nat) (i : Nat) (hc : find_next_crlf tail = some i) :
    parse (43 :: tail) = .ok (.simpleString (tail.take i)) (i + 3) := by
  rw [parse_plus, hc]

theorem parse_plus_none (tail : List Nat) (hc : find_next_crlf tail = none) :
    parse (43 :: tail) = .noClue := by
  rw [parse_plus, hc]

theorem parse_minus_some (tail : List Nat) (i : Nat) (hc : find_next_crlf tail = some i) :
    parse (45 :: tail) = .ok (.error (tail.take i)) (i + 3) := by
  rw [parse_minus, hc]

theorem parse_minus_none (tail : List Nat) (hc : find_next_crlf tail = none) :
    parse (45 :: tail) = .noClue := by
  rw [parse_minus, hc]

theorem parse_colon_some (tail : List Nat) (i : Nat) (ival : Int)
    (hc : find_next_crlf tail = some i) (ha : atoiI64 (tail.take i) = some ival) :
    parse (58 :: tail) = .ok (.integer ival) (i + 3) := by
  simp only [parse_colon, hc, ha]

theorem parse_colon_atoiNone (tail : List Nat) (i : Nat)
    (hc : find_next_crlf tail = some i) (ha : atoiI64 (tail.take i) = none) :
    parse (58 :: tail) = .err .notAnInteger := by
  simp only [parse_colon, hc, ha]

theorem parse_colon_none (tail : List Nat) (hc : find_next_crlf tail = none) :
    parse (58 :: tail) = .noClue := by
  rw [parse_colon, hc]

theorem parse_bulk_some (tail : List Nat) (i : Nat) (L : Int)
    (hc : find_next_crlf tail = some i) (ha : atoiI64 (tail.take i) = some L) :
    parse (36 :: tail) =
      if L ≠ -1 then
        if (tail.drop (i + 2)).length < (i64AsUsize L + 2) % u64Mod then
          .missing ((i64AsUsize L + 2) % u64Mod - (tail.drop (i + 2)).length)
        else if ((tail.drop (i + 2)).drop (i64AsUsize L)).take 2 ≠ [13, 10] then
          .err .expectedCrlf
        else
          .ok (.bulkString ((tail.drop (i + 2)).take (i64AsUsize L)))
            (i + 3 + (i64AsUsize L + 2))
      else .ok .nullString (i + 3) := by
  simp only [parse_bulk, hc, ha]

theorem parse_bulk_atoiNone (tail : List Nat) (i : Nat)
    (hc : find_next_crlf tail = some i) (ha : atoiI64 (tail.take i) = none) :
    parse (36 :: tail) = .err .notAnInteger := by
  simp only [parse_bulk, hc, ha]

theorem parse_bulk_none (tail : List Nat) (hc : find_next_crlf tail = none) :
    parse (36 :: tail) = .noClue := by
  rw [parse_bulk, hc]

theorem parse_star_some (tail : List Nat) (i : Nat) (L : Int)
    (hc : find_next_crlf tail = some i) (ha : atoiI64 (tail.take i) = some L) :
    parse (42 :: tail) =
      if L ≠ -1 then
        match parseMany (i64AsUsize L) (tail.drop (i + 2)) with
        | .ok values consumed => .ok (.array values) (i + 3 + consumed)
        | .missing n => .missing n
        | .noClue => .noClue
        | .err e => .err e
      else .ok .nullArray (i + 3) := by
  simp only [parse_star, hc, ha]

theorem parse_star_atoiNone (tail : List Nat) (i : Nat)
    (hc : find_next_crlf tail = some i) (ha : atoiI64 (tail.take i) = none) :
    parse (42 :: tail) = .err .notAnInteger := by
  simp only [parse_star, hc, ha]

theorem parse_star_none (tail : List Nat) (hc : find_next_crlf tail = none) :
    parse (42 :: tail) = .noClue := by
  rw [parse_star, hc]

theorem parseMany_succ_ok (count : Nat) (rest : List Nat) (v : Value) (c : Nat)
    (h : parse rest = .ok v c) :
    parseMany (count + 1) rest =
      match parseMany count (rest.drop c) with
      | .ok vs m => .ok (v :: vs) (c + m)
      | .missing n => .missing n
      | .noClue => .noClue
      | .err e => .err e := by
  rw [parseMany_succ, h]

theorem parseMany_succ_ok_ok (count : Nat) (rest : List Nat) (v : Value) (c : Nat)
    (vs : List Value) (m : Nat) (h : parse rest = .ok v c)
    (h2 : parseMany count (rest.drop c) = .ok vs m) :
    parseMany (count + 1) rest = .ok (v :: vs) (c + m) := by
  rw [parseMany_succ_ok count rest v c h, h2]

theorem parseMany_succ_headMore (count : Nat) (rest : List Nat)
    (h : (parse rest).needsMore = true) : (parseMany (count + 1) rest).needsMore = true := by
  rw [parseMany_succ]
  cases hz : parse rest with
  | ok v c => rw [hz] at h; exact absurd h (by simp [ParseOutcome.needsMore])
  | missing n => rfl
  | noClue => rfl
  | err e => rw [hz] at h; exact absurd h (by simp [ParseOutcome.needsMore])

theorem parseMany_succ_tailMore (count : Nat) (rest : List Nat) (v : Value) (c : Nat)
    (h : parse rest = .ok v c)
    (h2 : (parseMany count (rest.drop c)).needsMore = true) :
    (parseMany (count + 1) rest).needsMore = true := by
  rw [parseMany_succ_ok count rest v c h]
  cases hz : parseMany count (rest.drop c) with
  | ok a b => rw [hz] at h2; exact absurd h2 (by simp [ManyOutcome.needsMore])
  | missing n => rfl
  | noClue => rfl
  | err e => rw [hz] at h2; exact absurd h2 (by simp [ManyOutcome.needsMore])



/-- Bundle of the three stability facts about a successful `Value::parse`:
the reported offset is within the buffer; the result only depends on the
first `offset` bytes (truncating anywhere at or beyond it parses the same);
and truncating strictly inside the frame yields a need-more-bytes outcome
(for buffers of a physically possible — sub-`2^64` — length). -/
def ParseProps (s : List Nat) : Prop :=
  ∀ v n, parse s = .ok v n →
    n ≤ s.length ∧
    (∀ k, n ≤ k → parse (s.take k) = .ok v n) ∧
    (s.length < u64Mod → ∀ k, k < n → (parse (s.take k)).needsMore = true)

/-- The same three facts for the array-children loop. -/
def ManyProps (c : Nat) (rest : List Nat) : Prop :=
  ∀ vs m, parseMany c rest = .ok vs m →
    m ≤ rest.length ∧
    (∀ k, m ≤ k → parseMany c (rest.take k) = .ok vs m) ∧
    (rest.length < u64Mod → ∀ k, k < m → (parseMany c (rest.take k)).needsMore = true)

theorem manyProps_of_parseProps (c : Nat) :
    ∀ (rest : List Nat), (∀ s, s.length ≤ rest.length → ParseProps s) →
      ManyProps c rest := by
  induction c with
  | zero =>
    intro rest _ vs m h
    rw [parseMany_zero] at h
    simp at h
    obtain ⟨hv, hm⟩ := h
    subst hv
    subst hm
    exact ⟨Nat.zero_le _, fun k _ => by rw [parseMany_zero],
      fun _ k hk => absurd hk (by omega)⟩
  | succ c ih =>
    intro rest hP vs m h
    cases hp : parse rest with
    | ok v cv =>
      rw [parseMany_succ_ok c rest v cv hp] at h
      cases hq : parseMany c (rest.drop cv) with
      | ok vs' m' =>
        rw [hq] at h
        simp at h
        obtain ⟨hv, hm⟩ := h
        subst hv
        subst hm
        obtain ⟨hcv, hT, hI⟩ := hP rest le_rfl v cv hp
        have hdroplen : (rest.drop cv).length = rest.length - cv := List.length_drop ..
        obtain ⟨hm', hmT, hmI⟩ :=
          ih (rest.drop cv) (fun s hs => hP s (by omega)) vs' m' hq
        rw [hdroplen] at hm'
        refine ⟨by omega, ?_, ?_⟩
        · intro k hk
          have e1 : (rest.take k).drop cv = (rest.drop cv).take (k - cv) :=
            List.drop_take ..
          refine parseMany_succ_ok_ok c (rest.take k) v cv vs' m'
            (hT k (by omega)) ?_
          rw [e1]
          exact hmT (k - cv) (by omega)
        · intro hlen k hk
          by_cases hkc : k < cv
          · exact parseMany_succ_headMore c (rest.take k) (hI hlen k hkc)
          · push_neg at hkc
            refine parseMany_succ_tailMore c (rest.take k) v cv (hT k hkc) ?_
            have e1 : (rest.take k).drop cv = (rest.drop cv).take (k - cv) :=
              List.drop_take ..
            rw [e1]
            exact hmI (by omega) (k - cv) (by omega)
      | missing n => rw [hq] at h; simp at h
      | noClue => rw [hq] at h; simp at h
      | err e => rw [hq] at h; simp at h
    | missing n => rw [parseMany_succ, hp] at h; simp at h
    | noClue => rw [parseMany_succ, hp] at h; simp at h
    | err e => rw [parseMany_succ, hp] at h; simp at h


theorem parseProps_le : ∀ (N : Nat) (s : List Nat), s.length ≤ N → ParseProps s := by
  intro N
  induction N with
  | zero =>
    intro s hs v n hok
    have hnil : s = [] := List.length_eq_zero.mp (by omega)
    subst hnil
    rw [parse_nil] at hok
    simp at hok
  | succ N ih =>
    intro s hs v n hok
    cases s with
    | nil => rw [parse_nil] at hok; simp at hok
    | cons b tail =>
      have htail : tail.length ≤ N := by
        simp only [List.length_cons] at hs; omega
      by_cases h43 : b = 43
      · subst h43
        cases hc : find_next_crlf tail with
        | none => rw [parse_plus_none tail hc] at hok; simp at hok
        | some i =>
          rw [parse_plus_some tail i hc] at hok
          simp at hok
          obtain ⟨hv, hn⟩ := hok
          subst hv
          subst hn
          have hib := crlf_bound tail i hc
          refine ⟨by simp only [List.length_cons]; omega, ?_, ?_⟩
          · intro k hk
            cases k with
            | zero => omega
            | succ k' =>
              rw [List.take_succ_cons,
                parse_plus_some (tail.take k') i ((crlf_take_some tail i k' hc).1 (by omega)),
                List.take_take]
              have hmin : min i k' = i := by omega
              rw [hmin]
          · intro _ k hk
            cases k with
            | zero => rw [List.take_zero, parse_nil]; rfl
            | succ k' =>
              rw [List.take_succ_cons,
                parse_plus_none (tail.take k') ((crlf_take_some tail i k' hc).2 (by omega))]
              rfl
      · by_cases h45 : b = 45
        · subst h45
          cases hc : find_next_crlf tail with
          | none => rw [parse_minus_none tail hc] at hok; simp at hok
          | some i =>
            rw [parse_minus_some tail i hc] at hok
            simp at hok
            obtain ⟨hv, hn⟩ := hok
            subst hv
            subst hn
            have hib := crlf_bound tail i hc
            refine ⟨by simp only [List.length_cons]; omega, ?_, ?_⟩
            · intro k hk
              cases k with
              | zero => omega
              | succ k' =>
                rw [List.take_succ_cons,
                  parse_minus_some (tail.take k') i ((crlf_take_some tail i k' hc).1 (by omega)),
                  List.take_take]
                have hmin : min i k' = i := by omega
                rw [hmin]
            · intro _ k hk
              cases k with
              | zero => rw [List.take_zero, parse_nil]; rfl
              | succ k' =>
                rw [List.take_succ_cons,
                  parse_minus_none (tail.take k') ((crlf_take_some tail i k' hc).2 (by omega))]
                rfl
        · by_cases h58 : b = 58
          · subst h58
            cases hc : find_next_crlf tail with
            | none => rw [parse_colon_none tail hc] at hok; simp at hok
            | some i =>
              cases ha : atoiI64 (tail.take i) with
              | none => rw [parse_colon_atoiNone tail i hc ha] at hok; simp at hok
              | some ival =>
                rw [parse_colon_some tail i ival hc ha] at hok
                simp at hok
                obtain ⟨hv, hn⟩ := hok
                subst hv
                subst hn
                have hib := crlf_bound tail i hc
                refine ⟨by simp only [List.length_cons]; omega, ?_, ?_⟩
                · intro k hk
                  cases k with
                  | zero => omega
                  | succ k' =>
                    rw [List.take_succ_cons]
                    have ha' : atoiI64 ((tail.take k').take i) = some ival := by
                      rw [List.take_take]
                      have hmin : min i k' = i := by omega
                      rw [hmin]
                      exact ha
                    rw [parse_colon_some (tail.take k') i ival
                      ((crlf_take_some tail i k' hc).1 (by omega)) ha']
                · intro _ k hk
                  cases k with
                  | zero => rw [List.take_zero, parse_nil]; rfl
                  | succ k' =>
                    rw [List.take_succ_cons,
                      parse_colon_none (tail.take k') ((crlf_take_some tail i k' hc).2 (by omega))]
                    rfl
          · by_cases h36 : b = 36
            · subst h36
              cases hc : find_next_crlf tail with
              | none => rw [parse_bulk_none tail hc] at hok; simp at hok
              | some i =>
                cases ha : atoiI64 (tail.take i) with
                | none => rw [parse_bulk_atoiNone tail i hc ha] at hok; simp at hok
                | some L =>
                  rw [parse_bulk_some tail i L hc ha] at hok
                  have hib := crlf_bound tail i hc
                  by_cases hL : L = -1
                  · rw [if_neg (by simp [hL])] at hok
                    simp at hok
                    obtain ⟨hv, hn⟩ := hok
                    subst hv
                    subst hn
                    refine ⟨by simp only [List.length_cons]; omega, ?_, ?_⟩
                    · intro k hk
                      cases k with
                      | zero => omega
                      | succ k' =>
                        rw [List.take_succ_cons]
                        have ha' : atoiI64 ((tail.take k').take i) = some L := by
                          rw [List.take_take]
                          have hmin : min i k' = i := by omega
                          rw [hmin]
                          exact ha
                        rw [parse_bulk_some (tail.take k') i L
                          ((crlf_take_some tail i k' hc).1 (by omega)) ha',
                          if_neg (by simp [hL])]
                    · intro _ k hk
                      cases k with
                      | zero => rw [List.take_zero, parse_nil]; rfl
                      | succ k' =>
                        rw [List.take_succ_cons,
                          parse_bulk_none (tail.take k')
                            ((crlf_take_some tail i k' hc).2 (by omega))]
                        rfl
                  · rw [if_pos hL] at hok
                    by_cases hmiss :
                        (tail.drop (i + 2)).length < (i64AsUsize L + 2) % u64Mod
                    · rw [if_pos hmiss] at hok; simp at hok
                    · rw [if_neg hmiss] at hok
                      by_cases hcr :
                          ((tail.drop (i + 2)).drop (i64AsUsize L)).take 2 ≠ [13, 10]
                      · rw [if_pos hcr] at hok; simp at hok
                      · rw [if_neg hcr] at hok
                        push_neg at hcr
                        simp at hok
                        obtain ⟨hv, hn⟩ := hok
                        subst hv
                        subst hn
                        have hrest2 : i64AsUsize L + 2 ≤ (tail.drop (i + 2)).length := by
                          have hlen2 :
                              ((((tail.drop (i + 2)).drop (i64AsUsize L)).take 2)).length = 2 := by
                            rw [hcr]
                            rfl
                          rw [List.length_take, List.length_drop] at hlen2
                          omega
                        have hdl : (tail.drop (i + 2)).length = tail.length - (i + 2) :=
                          List.length_drop ..
                        refine ⟨by simp only [List.length_cons]; omega, ?_, ?_⟩
                        · intro k hk
                          cases k with
                          | zero => omega
                          | succ k' =>
                            rw [List.take_succ_cons]
                            have ha' : atoiI64 ((tail.take k').take i) = some L := by
                              rw [List.take_take]
                              have hmin : min i k' = i := by omega
                              rw [hmin]
                              exact ha
                            rw [parse_bulk_some (tail.take k') i L
                              ((crlf_take_some tail i k' hc).1 (by omega)) ha', if_pos hL]
                            have e1 : (tail.take k').drop (i + 2)
                                = (tail.drop (i + 2)).take (k' - (i + 2)) := List.drop_take ..
                            rw [e1]
                            have hnot : ¬(((tail.drop (i + 2)).take (k' - (i + 2))).length <
                                (i64AsUsize L + 2) % u64Mod) := by
                              rw [List.length_take]
                              have hle : (i64AsUsize L + 2) % u64Mod ≤ i64AsUsize L + 2 :=
                                Nat.mod_le ..
                              omega
                            rw [if_neg hnot]
                            have hcr2 :
                                (((tail.drop (i + 2)).take (k' - (i + 2))).drop
                                  (i64AsUsize L)).take 2 = [13, 10] := by
                              rw [List.drop_take, List.take_take]
                              have hm2 : min 2 (k' - (i + 2) - i64AsUsize L) = 2 := by omega
                              rw [hm2]
                              exact hcr
                            rw [if_neg (by rw [hcr2]; simp), List.take_take]
                            have hm3 : min (i64AsUsize L) (k' - (i + 2)) = i64AsUsize L := by
                              omega
                            rw [hm3]
                        · intro hlen k hk
                          cases k with
                          | zero => rw [List.take_zero, parse_nil]; rfl
                          | succ k' =>
                            by_cases hk2 : k' < i + 2
                            · rw [List.take_succ_cons,
                                parse_bulk_none (tail.take k')
                                  ((crlf_take_some tail i k' hc).2 (by omega))]
                              rfl
                            · push_neg at hk2
                              rw [List.take_succ_cons]
                              have ha' : atoiI64 ((tail.take k').take i) = some L := by
                                rw [List.take_take]
                                have hmin : min i k' = i := by omega
                                rw [hmin]
                                exact ha
                              rw [parse_bulk_some (tail.take k') i L
                                ((crlf_take_some tail i k' hc).1 (by omega)) ha', if_pos hL]
                              have e1 : (tail.take k').drop (i + 2)
                                  = (tail.drop (i + 2)).take (k' - (i + 2)) := List.drop_take ..
                              rw [e1]
                              have hlen' : tail.length < u64Mod := by
                                simp only [List.length_cons] at hlen
                                omega
                              have hlim : (i64AsUsize L + 2) % u64Mod = i64AsUsize L + 2 :=
                                Nat.mod_eq_of_lt (by omega)
                              have hyes : ((tail.drop (i + 2)).take (k' - (i + 2))).length <
                                  (i64AsUsize L + 2) % u64Mod := by
                                rw [List.length_take, hlim]
                                omega
                              rw [if_pos hyes]
                              rfl
            · by_cases h42 : b = 42
              · subst h42
                cases hc : find_next_crlf tail with
                | none => rw [parse_star_none tail hc] at hok; simp at hok
                | some i =>
                  cases ha : atoiI64 (tail.take i) with
                  | none => rw [parse_star_atoiNone tail i hc ha] at hok; simp at hok
                  | some L =>
                    rw [parse_star_some tail i L hc ha] at hok
                    have hib := crlf_bound tail i hc
                    by_cases hL : L = -1
                    · rw [if_neg (by simp [hL])] at hok
                      simp at hok
                      obtain ⟨hv, hn⟩ := hok
                      subst hv
                      subst hn
                      refine ⟨by simp only [List.length_cons]; omega, ?_, ?_⟩
                      · intro k hk
                        cases k with
                        | zero => omega
                        | succ k' =>
                          rw [List.take_succ_cons]
                          have ha' : atoiI64 ((tail.take k').take i) = some L := by
                            rw [List.take_take]
                            have hmin : min i k' = i := by omega
                            rw [hmin]
                            exact ha
                          rw [parse_star_some (tail.take k') i L
                            ((crlf_take_some tail i k' hc).1 (by omega)) ha',
                            if_neg (by simp [hL])]
                      · intro _ k hk
                        cases k with
                        | zero => rw [List.take_zero, parse_nil]; rfl
                        | succ k' =>
                          rw [List.take_succ_cons,
                            parse_star_none (tail.take k')
                              ((crlf_take_some tail i k' hc).2 (by omega))]
                          rfl
                    · rw [if_pos hL] at hok
                      cases hpm : parseMany (i64AsUsize L) (tail.drop (i + 2)) with
                      | missing n2 => rw [hpm] at hok; simp at hok
                      | noClue => rw [hpm] at hok; simp at hok
                      | err e => rw [hpm] at hok; simp at hok
                      | ok vs m =>
                        rw [hpm] at hok
                        simp at hok
                        obtain ⟨hv, hn⟩ := hok
                        subst hv
                        subst hn
                        have hdl : (tail.drop (i + 2)).length = tail.length - (i + 2) :=
                          List.length_drop ..
                        obtain ⟨hm_le, hmT, hmI⟩ :=
                          manyProps_of_parseProps (i64AsUsize L) (tail.drop (i + 2))
                            (fun s' hs' => ih s' (by omega)) vs m hpm
                        refine ⟨by simp only [List.length_cons]; omega, ?_, ?_⟩
                        · intro k hk
                          cases k with
                          | zero => omega
                          | succ k' =>
                            rw [List.take_succ_cons]
                            have ha' : atoiI64 ((tail.take k').take i) = some L := by
                              rw [List.take_take]
                              have hmin : min i k' = i := by omega
                              rw [hmin]
                              exact ha
                            rw [parse_star_some (tail.take k') i L
                              ((crlf_take_some tail i k' hc).1 (by omega)) ha', if_pos hL]
                            have e1 : (tail.take k').drop (i + 2)
                                = (tail.drop (i + 2)).take (k' - (i + 2)) := List.drop_take ..
                            rw [e1, hmT (k' - (i + 2)) (by omega)]
                        · intro hlen k hk
                          cases k with
                          | zero => rw [List.take_zero, parse_nil]; rfl
                          | succ k' =>
                            by_cases hk2 : k' < i + 2
                            · rw [List.take_succ_cons,
                                parse_star_none (tail.take k')
                                  ((crlf_take_some tail i k' hc).2 (by omega))]
                              rfl
                            · push_neg at hk2
                              rw [List.take_succ_cons]
                              have ha' : atoiI64 ((tail.take k').take i) = some L := by
                                rw [List.take_take]
                                have hmin : min i k' = i := by omega
                                rw [hmin]
                                exact ha
                              rw [parse_star_some (tail.take k') i L
                                ((crlf_take_some tail i k' hc).1 (by omega)) ha', if_pos hL]
                              have e1 : (tail.take k').drop (i + 2)
                                  = (tail.drop (i + 2)).take (k' - (i + 2)) := List.drop_take ..
                              rw [e1]
                              have h2 := hmI
                                (by simp only [List.length_cons] at hlen; omega)
                                (k' - (i + 2)) (by omega)
                              cases hz : parseMany (i64AsUsize L)
                                  ((tail.drop (i + 2)).take (k' - (i + 2))) with
                              | ok a bb =>
                                rw [hz] at h2
                                exact absurd h2 (by simp [ManyOutcome.needsMore])
                              | missing n2 => rfl
                              | noClue => rfl
                              | err e =>
                                rw [hz] at h2
                                exact absurd h2 (by simp [ManyOutcome.needsMore])
              · rw [parse_other b tail h43 h45 h58 h36 h42] at hok
                simp at hok


/-- C5: for every valid encoded frame `f` (a buffer the parser accepts while
consuming exactly all of `f`; `f` fits in a real buffer, i.e. has fewer than
2^64 bytes) and every strict prefix `f.take k` of it, the parser reports
need-more-bytes (`Missing` with a hint, or `NoClue`) — never a value and
never an error — and `RedisProtocol::decode` returns no item and leaves the
buffer untouched (zero bytes consumed). -/
theorem C5_strict_front_of_frame_needs_more (f : List Nat) (v : Value) (k : Nat)
    (hphys : f.length < u64Mod) (hframe : parse f = .ok v f.length)
    (hk : k < f.length) :
    (parse (f.take k)).needsMore = true ∧ decode (f.take k) = .ok none (f.take k) := by
  have h := (parseProps_le f.length f le_rfl) v f.length hframe
  have hinc := h.2.2 hphys k hk
  refine ⟨hinc, ?_⟩
  unfold decode
  cases hq : parse (f.take k) with
  | ok a b => rw [hq] at hinc; exact absurd hinc (by simp [ParseOutcome.needsMore])
  | missing n => rfl
  | noClue => rfl
  | err e => rw [hq] at hinc; exact absurd hinc (by simp [ParseOutcome.needsMore])

/-- Witness for C5 at a concrete input: the frame `+OK\r\n` truncated to its
first 3 bytes. -/
theorem C5_witness :
    (strBytes "+OK\r\n").length < u64Mod ∧
      parse (strBytes "+OK\r\n") =
        .ok (.simpleString (strBytes "OK")) (strBytes "+OK\r\n").length ∧
      3 < (strBytes "+OK\r\n").length ∧
      ((parse ((strBytes "+OK\r\n").take 3)).needsMore = true ∧
        decode ((strBytes "+OK\r\n").take 3) = .ok none ((strBytes "+OK\r\n").take 3)) :=
  ⟨by simp [strBytes, u64Mod], by simp [parse, strBytes, find_next_crlf],
    by simp [strBytes],
    C5_strict_front_of_frame_needs_more (strBytes "+OK\r\n") (.simpleString (strBytes "OK")) 3
      (by simp [strBytes, u64Mod]) (by simp [parse, strBytes, find_next_crlf])
      (by simp [strBytes])⟩


end Xylon
